import Mathlib

/-!
Shallow embedding of the signal-to-weights-to-returns pipeline of the
health-etf-quant repository, and proofs of the frozen claims about it.

Conventions of the embedding:
* A pandas DataFrame panel is a `Panel`: a date index (list of dates encoded
  as integers), a column list (tickers), and a total value function
  `ℕ → ℕ → α` (row position, column position).  Prices carry plain rationals
  (the data model guarantees a clean, positive, forward-filled panel coming
  from the price provider); weights carry `Option ℚ`, `none` standing for a
  missing (NaN) entry, because `run_backtest` explicitly fills them.
* Float arithmetic is modelled over `ℚ`; all the claims under study are about
  exact structural identities (forced zeros/ones, index lags, proportional
  scalings), none about rounding.
* A fallible pandas operation is an `Except String` value; raising an
  exception is returning `.error`.
-/

namespace HealthEtf

/-- A pandas DataFrame: date index, ticker columns, and values addressed by
(row position, column position). -/
structure Panel (α : Type) where
  index : List ℤ
  cols : List String
  v : ℕ → ℕ → α

/-- Result bundle of `run_backtest` (src/backtest/engine.py, `BacktestResult`).
Series are modelled as total functions on row positions; only positions below
the index length are meaningful. -/
structure BacktestResult where
  daily_returns : ℕ → ℚ
  equity_curve : ℕ → ℚ
  weights : ℕ → ℕ → ℚ
  turnover : ℕ → ℚ

/-- engine.py line 16: `TRADING_DAYS = 252`. -/
def TRADING_DAYS : ℚ := 252

/-- `weights.fillna(0.0)` (engine.py line 52): missing weight entries become 0. -/
def wfill (w : ℕ → ℕ → Option ℚ) (t i : ℕ) : ℚ := (w t i).getD 0

/-- `prices.pct_change().fillna(0.0)` (engine.py line 53): simple return from
the previous close; the first row has no previous close and is filled with 0. -/
def pct_change (p : ℕ → ℕ → ℚ) (t i : ℕ) : ℚ :=
  if t = 0 then 0 else p t i / p (t - 1) i - 1

/-- `weights.shift(1).fillna(0.0)` (engine.py line 56): the weight lagged by one
day; row 0 becomes 0. -/
def shift1 (w : ℕ → ℕ → ℚ) (t i : ℕ) : ℚ :=
  if t = 0 then 0 else w (t - 1) i

/-- `(shifted_weights * asset_returns).sum(axis=1)` (engine.py line 59). -/
def portfolio_returns (N : ℕ) (p : ℕ → ℕ → ℚ) (w : ℕ → ℕ → Option ℚ) (t : ℕ) : ℚ :=
  ∑ i ∈ Finset.range N, shift1 (wfill w) t i * pct_change p t i

/-- `weights.diff().abs().sum(axis=1).fillna(0.0) / 2.0` (engine.py lines 62-63).
`diff` leaves the first row all-NaN and the skipna sum of that row is 0. -/
def turnover_at (N : ℕ) (w : ℕ → ℕ → Option ℚ) (t : ℕ) : ℚ :=
  if t = 0 then 0
  else (∑ i ∈ Finset.range N, |wfill w t i - wfill w (t - 1) i|) / 2

/-- `(-shifted_weights.clip(upper=0.0)).sum(axis=1)` (engine.py line 68). -/
def short_notional (N : ℕ) (w : ℕ → ℕ → Option ℚ) (t : ℕ) : ℚ :=
  ∑ i ∈ Finset.range N, -(min (shift1 (wfill w) t i) 0)

/-- `shifted_weights.sum(axis=1)` (engine.py line 73). -/
def net_exposure (N : ℕ) (w : ℕ → ℕ → Option ℚ) (t : ℕ) : ℚ :=
  ∑ i ∈ Finset.range N, shift1 (wfill w) t i

/-- `(1.0 - net_exposure).clip(lower=0.0)` (engine.py line 74). -/
def cash_weight (N : ℕ) (w : ℕ → ℕ → Option ℚ) (t : ℕ) : ℚ :=
  max (1 - net_exposure N w t) 0

/-- engine.py line 78: gross return minus transaction cost and borrow cost
plus cash credit, before the first row is forced to zero. -/
def returns_after_costs (N : ℕ) (p : ℕ → ℕ → ℚ) (w : ℕ → ℕ → Option ℚ)
    (tc_bps borrow cash : ℚ) (t : ℕ) : ℚ :=
  portfolio_returns N p w t - (tc_bps / 10000) * turnover_at N w t
    - (borrow / TRADING_DAYS) * short_notional N w t
    + (cash / TRADING_DAYS) * cash_weight N w t

/-- engine.py lines 80-81: the first row of the net return series is set to 0. -/
def daily_returns_final (N : ℕ) (p : ℕ → ℕ → ℚ) (w : ℕ → ℕ → Option ℚ)
    (tc_bps borrow cash : ℚ) (t : ℕ) : ℚ :=
  if t = 0 then 0 else returns_after_costs N p w tc_bps borrow cash t

/-- Running product `∏ s ≤ t, f s`, the meaning of pandas `cumprod` at row t. -/
def cumprod (f : ℕ → ℚ) : ℕ → ℚ
  | 0 => f 0
  | t + 1 => cumprod f t * f (t + 1)

/-- engine.py lines 83-84: cumulative product of (1 + net return), with the
first entry then overwritten by exactly 1.0. -/
def equity_curve_of (N : ℕ) (p : ℕ → ℕ → ℚ) (w : ℕ → ℕ → Option ℚ)
    (tc_bps borrow cash : ℚ) (t : ℕ) : ℚ :=
  if t = 0 then 1
  else cumprod (fun s => 1 + daily_returns_final N p w tc_bps borrow cash s) t

/-- The `BacktestResult` built by the non-raising path of `run_backtest`. -/
def mkResult (N : ℕ) (p : ℕ → ℕ → ℚ) (w : ℕ → ℕ → Option ℚ)
    (tc_bps borrow cash : ℚ) : BacktestResult where
  daily_returns := daily_returns_final N p w tc_bps borrow cash
  equity_curve := equity_curve_of N p w tc_bps borrow cash
  weights := shift1 (wfill w)
  turnover := turnover_at N w

/-- engine.py lines 30-35, `_validate_alignment`: indices must be identical and
column lists equal in content and order. -/
def _validate_alignment (prices : Panel ℚ) (weights : Panel (Option ℚ)) :
    Except String Unit :=
  if prices.index ≠ weights.index then
    Except.error "Prices and weights indices do not align."
  else if prices.cols ≠ weights.cols then
    Except.error "Prices and weights columns must match and be ordered identically."
  else Except.ok ()

/-- engine.py `run_backtest`.  After validation, on an empty index the
assignment `equity_curve.iloc[0] = 1.0` (line 84) raises an IndexError —
the guard on line 80 protects only the returns series — so the empty case is
an error; otherwise the result bundle is produced. -/
def run_backtest (prices : Panel ℚ) (weights : Panel (Option ℚ))
    (tc_bps borrow cash : ℚ) : Except String BacktestResult :=
  match _validate_alignment prices weights with
  | Except.error e => Except.error e
  | Except.ok _ =>
      if prices.index.length = 0 then
        Except.error "iloc cannot enlarge its target object"
      else
        Except.ok (mkResult prices.cols.length prices.v weights.v tc_bps borrow cash)

/-! ## Regime features (src/signals/regime.py) -/

/-- pandas `Series.diff(n)` on a monthly series: value minus the value n months
back, missing for the first n months. -/
def series_diff (x : ℕ → ℚ) (n : ℕ) (m : ℕ) : Option ℚ :=
  if n ≤ m then some (x m - x (m - n)) else none

/-- pandas `Series.pct_change(n)` on a monthly series. -/
def series_pct_change (x : ℕ → ℚ) (n : ℕ) (m : ℕ) : Option ℚ :=
  if n ≤ m then some (x m / x (m - n) - 1) else none

/-- pandas `Series.rolling(n).mean()` (default min_periods = window). -/
def rolling_mean (x : ℕ → ℚ) (n : ℕ) (m : ℕ) : Option ℚ :=
  if n ≤ m + 1 then some ((∑ j ∈ Finset.range n, x (m - j)) / (n : ℚ)) else none

/-- regime.py `compute_monthly_features`.  The three inputs are taken already
resampled to month-end positions (`.resample("ME").last()` / `.mean()` is
calendar bookkeeping on the raw series); the guard on the lookback windows
(lines 26-27) raises before any feature is computed.  The month-position
function returned pairs each month with (delta_rate, spy_return, vix_mean);
the final `dropna(how="all")` only drops all-missing rows and is a reindexing
of the same content. -/
def compute_monthly_features (tnx_yield spy_prices vix : ℕ → ℚ)
    (lookback_months_rate lookback_months_spy vix_window_months : ℤ) :
    Except String (ℕ → Option ℚ × Option ℚ × Option ℚ) :=
  if lookback_months_rate ≤ 0 ∨ lookback_months_spy ≤ 0 ∨ vix_window_months ≤ 0 then
    Except.error "Lookback windows must be positive integers."
  else
    Except.ok (fun m =>
      (series_diff tnx_yield lookback_months_rate.toNat m,
       series_pct_change spy_prices lookback_months_spy.toNat m,
       rolling_mean vix vix_window_months.toNat m))

/-! ## Simple long/short builder (src/signals/ls_biotech_pharma.py lines 12-49) -/

/-- ls_biotech_pharma.py `build_monthly_ls_weights_simple`.  `regime_labels` is
the monthly label series by month position, `monthOfDay` maps a daily row to
the position of the last rebalance month at or before it (`reindex(dates,
method="ffill")`; `none` before the first rebalance, filled with 0).  Output is
the daily weight by ticker; both legs are written into a dict keyed by ticker,
so if the two tickers coincide the later (short-leg) write wins. -/
def build_monthly_ls_weights_simple (regime_labels : ℕ → ℤ)
    (monthOfDay : ℕ → Option ℕ) (long_ticker short_ticker : String)
    (risk_off_mode : String) :
    Except String (ℕ → String → ℚ) :=
  if risk_off_mode ∉ (["flat", "long_pharma", "reverse"] : List String) then
    Except.error "risk_off_mode must be one of flat, long_pharma, reverse."
  else
    Except.ok (fun t c =>
      match monthOfDay t with
      | none => 0
      | some m =>
          let pair : ℚ × ℚ :=
            if regime_labels m = 1 then (1, -1)
            else if risk_off_mode = "flat" then (0, 0)
            else if risk_off_mode = "long_pharma" then (0, 1)
            else (-1, 1)
          if c = short_ticker then pair.2
          else if c = long_ticker then pair.1
          else 0)

/-! ## Momentum signals (src/signals/momentum.py)

DataFrame operations act column by column, so each definition takes a single
monthly price series `p : ℕ → ℚ` (month position → month-end price). -/

/-- momentum.py line 24: `monthly_prices / monthly_prices.shift(lookback_months)
- 1`, the raw lookback return, missing for the first `lookback_months` months. -/
def raw_lookback_return (p : ℕ → ℚ) (lookback_months : ℕ) (m : ℕ) : Option ℚ :=
  if lookback_months ≤ m then some (p m / p (m - lookback_months) - 1) else none

/-- momentum.py `compute_momentum_signal`: the raw lookback return shifted by
one month (`raw_mom.shift(1)`, line 25). -/
def compute_momentum_signal (p : ℕ → ℚ) (lookback_months : ℕ) (m : ℕ) : Option ℚ :=
  if m = 0 then none else raw_lookback_return p lookback_months (m - 1)

/-- momentum.py `compute_12m_1m_momentum`: `shift(1) / shift(12) - 1`, missing
for the first 12 months. -/
def compute_12m_1m_momentum (p : ℕ → ℚ) (m : ℕ) : Option ℚ :=
  if 12 ≤ m then some (p (m - 1) / p (m - 12) - 1) else none

/-- momentum.py `compute_ts_momentum_flag`: 1 iff the own lookback return is
strictly positive; a missing (NaN) return compares false and gives 0. -/
def compute_ts_momentum_flag (p : ℕ → ℚ) (lookback_months : ℕ) (m : ℕ) : ℤ :=
  if lookback_months ≤ m ∧ 0 < p m / p (m - lookback_months) - 1 then 1 else 0

/-! ## Risk-balanced long/short (src/signals/ls_biotech_pharma.py lines 79-140)

The spread-momentum series (a log-price-ratio change, line 64-76) and the
trailing annualized volatilities (rolling std times √252) involve irrational
functions of the prices; the monthly builder receives them as data, which is
how the Python function takes them as parameters. -/

/-- ls_biotech_pharma.py `compute_risk_balanced_ls_weights`: the two legs'
entries of `current_vols` after `reindex([long, short])` (`none` = NaN/absent);
flat when a vol is missing or non-positive, otherwise inverse-vol weights
scaled to the target gross exposure, short leg negated. -/
def compute_risk_balanced_ls_weights (volL volS : Option ℚ)
    (target_gross_exposure : ℚ) : ℚ × ℚ :=
  match volL, volS with
  | some vL, some vS =>
      if vL ≤ 0 ∨ vS ≤ 0 then (0, 0)
      else
        let inv_vol_long := 1 / vL
        let inv_vol_short := 1 / vS
        let total := inv_vol_long + inv_vol_short
        if total ≤ 0 then (0, 0)
        else (inv_vol_long / total * target_gross_exposure,
              -(inv_vol_short / total * target_gross_exposure))
  | _, _ => (0, 0)

/-- ls_biotech_pharma.py `_build_monthly_ls_weights_risk_balanced`, one month
of the rebalance loop (lines 117-135): risk is taken only when the regime
label equals 1 and the spread momentum is present and strictly above the
threshold; the weights dict is zero except the two legs, the short leg being
written after the long leg (so on a ticker collision the short entry wins). -/
def ls_month_pair (regime_label : ℤ) (smom : Option ℚ)
    (spread_mom_threshold : ℚ) (volL volS : Option ℚ)
    (target_gross_exposure : ℚ) : ℚ × ℚ :=
  match smom with
  | some m =>
      if regime_label = 1 ∧ spread_mom_threshold < m then
        compute_risk_balanced_ls_weights volL volS target_gross_exposure
      else (0, 0)
  | none => (0, 0)

/-- The month's weight by ticker: zero except the two legs (the short leg is
written into the dict after the long leg, so it wins a ticker collision). -/
def ls_risk_balanced_month (regime_label : ℤ) (smom : Option ℚ)
    (spread_mom_threshold : ℚ) (volL volS : Option ℚ)
    (long_ticker short_ticker : String) (target_gross_exposure : ℚ) :
    String → ℚ :=
  fun c =>
    if c = short_ticker then
      (ls_month_pair regime_label smom spread_mom_threshold volL volS
        target_gross_exposure).2
    else if c = long_ticker then
      (ls_month_pair regime_label smom spread_mom_threshold volL volS
        target_gross_exposure).1
    else 0

/-! ## Rotation strategy (src/signals/rotation_signals.py and
src/portfolio/weights_utils.py, vol_target.py)

The rolling annualized volatility (`estimate_rolling_vol`: rolling ddof=0
standard deviation × √252) and the portfolio-vol scaling involve square
roots, which are irrational; the square root used by the float code is passed
in as an abstract function `sqrtQ`, and the per-month volatility row selected
on lines 96-99 (`vol_df.loc[date]`, falling back to the last row at or before
the date) is passed as data, `none` standing for a missing entry.  All the
claims proved below hold for every `sqrtQ` and every volatility row. -/

/-- `weights.abs().sum(axis=1)` for an integer-indexed panel. -/
def gross_exposure (N : ℕ) (w : ℕ → ℕ → ℚ) (t : ℕ) : ℚ :=
  ∑ i ∈ Finset.range N, |w t i|

/-- weights_utils.py `cap_gross_leverage`: raises on a non-positive cap;
otherwise each day whose gross exposure exceeds the cap is scaled by
cap/gross and every other day is left unchanged (the early return
`if not over.any(): return weights` yields the same values). -/
def cap_gross_leverage (N : ℕ) (w : ℕ → ℕ → ℚ) (max_gross_leverage : ℚ) :
    Except String (ℕ → ℕ → ℚ) :=
  if max_gross_leverage ≤ 0 then
    Except.error "max_gross_leverage must be positive."
  else
    Except.ok (fun t i =>
      if max_gross_leverage < gross_exposure N w t then
        w t i * (max_gross_leverage / gross_exposure N w t)
      else w t i)

/-- `weights.abs().sum(axis=1)` for a ticker-keyed daily panel. -/
def gross_exposure_cols (cols : List String) (w : ℕ → String → ℚ) (t : ℕ) : ℚ :=
  (cols.map (fun d => |w t d|)).sum

/-- rotation_signals.py lines 120-124: the final re-cap of the forward-filled
daily rotation weights at the leverage ceiling. -/
def recap_gross_leverage (cols : List String) (w : ℕ → String → ℚ)
    (max_gross_leverage : ℚ) : ℕ → String → ℚ :=
  fun t c =>
    if max_gross_leverage < gross_exposure_cols cols w t then
      w t c * (max_gross_leverage / gross_exposure_cols cols w t)
    else w t c

/-- vol_target.py `scale_weights_to_target_vol`: scale inverse-vol risk
weights so the zero-correlation portfolio vol hits the target, then cap the
gross exposure.  `risk_weights` is the dict, `current_vols` the vol series on
the winners' index (both association lists in index order); the model has no
NaN vols (they were dropped by the caller), so `vols.isna().all()` is never
true and `astype(float)` is the identity. -/
def scale_weights_to_target_vol (sqrtQ : ℚ → ℚ)
    (risk_weights current_vols : List (String × ℚ))
    (target_vol_annual max_gross_leverage : ℚ) : String → ℚ :=
  if current_vols = [] ∨ risk_weights = [] then fun _ => 0
  else
    let w : String → ℚ := fun k => (risk_weights.lookup k).getD 0
    if (current_vols.map (fun kv => |w kv.1|)).sum = 0 then fun _ => 0
    else
      let unscaled_var := (current_vols.map (fun kv => w kv.1 ^ 2 * kv.2 ^ 2)).sum
      if unscaled_var ≤ 0 then fun _ => 0
      else
        let unscaled_vol := sqrtQ unscaled_var
        let scale :=
          if target_vol_annual ≠ 0 ∧ unscaled_vol ≠ 0 then
            target_vol_annual / unscaled_vol
          else 0
        let gross := (current_vols.map (fun kv => |w kv.1 * scale|)).sum
        let scale2 :=
          if max_gross_leverage < gross ∧ 0 < gross then max_gross_leverage / gross
          else 1
        fun k =>
          if (current_vols.map Prod.fst).contains k then w k * scale * scale2 else 0

/-- Stable insertion into a descending-by-score list: an element goes after
every element with a score ≥ its own (pandas `nlargest` keeps the first
occurrence among ties). -/
def insertDesc (x : String × ℚ) : List (String × ℚ) → List (String × ℚ)
  | [] => [x]
  | y :: ys => if y.2 < x.2 then x :: y :: ys else y :: insertDesc x ys

/-- Stable descending sort by score. -/
def sortDesc (l : List (String × ℚ)) : List (String × ℚ) :=
  l.foldl (fun acc x => insertDesc x acc) []

/-- `row.dropna()` over the healthcare tickers, keeping ticker order. -/
def rotation_scores (score_row : String → Option ℚ) (hc : List String) :
    List (String × ℚ) :=
  hc.filterMap (fun t => (score_row t).map (fun s => (t, s)))

/-- rotation_signals.py lines 77-83: the defensive allocation taken when the
best momentum score is non-positive. -/
def rotation_month_defensive (cols : List String)
    (defensive_ticker : Option String)
    (defensive_on_negative_momentum : Bool) : String → ℚ :=
  match defensive_ticker with
  | some d =>
      if defensive_on_negative_momentum = true ∧ d ∈ cols then
        fun c => if c = d then 1 else 0
      else fun _ => 0
  | none => fun _ => 0

/-- rotation_signals.py lines 86-114: time-series momentum gating, top-K
stable selection, inverse-vol risk weights, and vol-target scaling. -/
def rotation_month_select (sqrtQ : ℚ → ℚ) (scores : List (String × ℚ))
    (ts_flag : Option (String → ℤ)) (volAt : String → Option ℚ) (top_k : ℕ)
    (target_vol_annual max_gross_leverage : ℚ) : String → ℚ :=
  let eligible :=
    match ts_flag with
    | some flags => scores.filter (fun kv => flags kv.1 = 1)
    | none => scores
  if eligible = [] ∨ eligible.all (fun kv => decide (kv.2 ≤ 0)) then fun _ => 0
  else
    let winners := ((sortDesc eligible).take top_k).map Prod.fst
    let current_vols := winners.filterMap (fun t =>
      (volAt t).bind (fun v => if v = 0 then none else some (t, v)))
    if current_vols = [] then fun _ => 0
    else
      let inv_sum := (current_vols.map (fun kv => 1 / kv.2)).sum
      let risk_w := current_vols.map (fun kv => (kv.1, 1 / kv.2 / inv_sum))
      let scaled := scale_weights_to_target_vol sqrtQ risk_w current_vols
        target_vol_annual max_gross_leverage
      fun c => if c ∈ winners then scaled c else 0

/-- rotation_signals.py lines 71-114, the body of the month loop after the
trend filter: dropna the score row, bail to cash on no scores, defensive
allocation when the best score is ≤ 0, otherwise gate and size. -/
def rotation_month_core (sqrtQ : ℚ → ℚ) (cols hc : List String)
    (score_row : String → Option ℚ) (ts_flag : Option (String → ℤ))
    (volAt : String → Option ℚ) (top_k : ℕ)
    (target_vol_annual max_gross_leverage : ℚ)
    (defensive_ticker : Option String) (defensive_on_negative_momentum : Bool) :
    String → ℚ :=
  if rotation_scores score_row hc = [] then fun _ => 0
  else if (rotation_scores score_row hc).all (fun kv => decide (kv.2 ≤ 0)) then
    rotation_month_defensive cols defensive_ticker defensive_on_negative_momentum
  else
    rotation_month_select sqrtQ (rotation_scores score_row hc) ts_flag volAt
      top_k target_vol_annual max_gross_leverage

/-- rotation_signals.py lines 67-69 plus the core: a month is fully flat when
the XLV trend value is present (`pd.notna`) and ≤ 0. -/
def rotation_month (sqrtQ : ℚ → ℚ) (cols hc : List String)
    (score_row : String → Option ℚ) (xlv_trend : Option ℚ)
    (ts_flag : Option (String → ℤ)) (volAt : String → Option ℚ) (top_k : ℕ)
    (target_vol_annual max_gross_leverage : ℚ)
    (defensive_ticker : Option String) (defensive_on_negative_momentum : Bool) :
    String → ℚ :=
  match xlv_trend with
  | some v =>
      if v ≤ 0 then fun _ => 0
      else
        rotation_month_core sqrtQ cols hc score_row ts_flag volAt top_k
          target_vol_annual max_gross_leverage defensive_ticker
          defensive_on_negative_momentum
  | none =>
      rotation_month_core sqrtQ cols hc score_row ts_flag volAt top_k
        target_vol_annual max_gross_leverage defensive_ticker
        defensive_on_negative_momentum

/-- rotation_signals.py line 41: the healthcare universe actually present. -/
def rotation_hc (cols : List String) : List String :=
  (["XBI", "XPH", "IHF", "IHI", "XLV"] : List String).filter (fun t => t ∈ cols)

/-- rotation_signals.py lines 44-47: the cross-sectional momentum score row. -/
def rotation_score_row (monthly_prices : ℕ → String → ℚ) (use_12m1m : Bool)
    (lookback_months : ℕ) (m : ℕ) (t : String) : Option ℚ :=
  if use_12m1m then compute_12m_1m_momentum (fun j => monthly_prices j t) m
  else compute_momentum_signal (fun j => monthly_prices j t) lookback_months m

/-- rotation_signals.py lines 49-53: the per-month time-series momentum flags,
present only when gating is enabled. -/
def rotation_ts_row (monthly_prices : ℕ → String → ℚ) (use_ts_mom_gating : Bool)
    (ts_lookback_months : ℕ) (m : ℕ) : Option (String → ℤ) :=
  if use_ts_mom_gating then
    some (fun t =>
      compute_ts_momentum_flag (fun j => monthly_prices j t) ts_lookback_months m)
  else none

/-- rotation_signals.py lines 55-57: `monthly_prices[xlv]/shift(12) - 1`, only
when the filter is on and the ticker is present; missing for the first 12
months. -/
def rotation_xlv_trend (monthly_prices : ℕ → String → ℚ)
    (use_xlv_trend_filter : Bool) (cols : List String) (xlv_ticker : String)
    (m : ℕ) : Option ℚ :=
  if use_xlv_trend_filter = true ∧ xlv_ticker ∈ cols ∧ 12 ≤ m then
    some (monthly_prices m xlv_ticker / monthly_prices (m - 12) xlv_ticker - 1)
  else none

/-- The month-position weights of the rotation strategy. -/
def rotation_monthly (sqrtQ : ℚ → ℚ) (cols : List String)
    (monthly_prices : ℕ → String → ℚ) (use_12m1m : Bool) (lookback_months : ℕ)
    (use_ts_mom_gating : Bool) (ts_lookback_months : ℕ)
    (use_xlv_trend_filter : Bool) (xlv_ticker : String)
    (volAt : ℕ → String → Option ℚ) (top_k : ℕ)
    (target_vol_annual max_gross_leverage : ℚ)
    (defensive_ticker : Option String) (defensive_on_negative_momentum : Bool)
    (m : ℕ) : String → ℚ :=
  rotation_month sqrtQ cols (rotation_hc cols)
    (rotation_score_row monthly_prices use_12m1m lookback_months m)
    (rotation_xlv_trend monthly_prices use_xlv_trend_filter cols xlv_ticker m)
    (rotation_ts_row monthly_prices use_ts_mom_gating ts_lookback_months m)
    (volAt m) top_k target_vol_annual max_gross_leverage defensive_ticker
    defensive_on_negative_momentum

/-- rotation_signals.py lines 116-118: forward-fill of the monthly weights to
daily rows; `monthOfDay` maps a day to the position of the last rebalance
month at or before it, `none` (before the first month, `fillna(0.0)`) giving
zeros. -/
def rotation_daily (monthly : ℕ → String → ℚ) (monthOfDay : ℕ → Option ℕ) :
    ℕ → String → ℚ :=
  fun t c =>
    match monthOfDay t with
    | some m => monthly m c
    | none => 0

/-- rotation_signals.py `build_monthly_rotation_weights`: month loop,
forward-fill to daily, and final re-cap at the leverage ceiling. -/
def build_monthly_rotation_weights (sqrtQ : ℚ → ℚ) (cols : List String)
    (monthly_prices : ℕ → String → ℚ) (use_12m1m : Bool) (lookback_months : ℕ)
    (use_ts_mom_gating : Bool) (ts_lookback_months : ℕ)
    (use_xlv_trend_filter : Bool) (xlv_ticker : String)
    (volAt : ℕ → String → Option ℚ) (top_k : ℕ)
    (target_vol_annual max_gross_leverage : ℚ)
    (defensive_ticker : Option String) (defensive_on_negative_momentum : Bool)
    (monthOfDay : ℕ → Option ℕ) : ℕ → String → ℚ :=
  recap_gross_leverage cols
    (rotation_daily
      (rotation_monthly sqrtQ cols monthly_prices use_12m1m lookback_months
        use_ts_mom_gating ts_lookback_months use_xlv_trend_filter xlv_ticker
        volAt top_k target_vol_annual max_gross_leverage defensive_ticker
        defensive_on_negative_momentum)
      monthOfDay)
    max_gross_leverage

/-! ## Concrete inputs used to instantiate the hypotheses of the theorems -/

/-- A two-day, one-ticker price panel. -/
def Pex : Panel ℚ :=
  ⟨[0, 1], ["A"], fun t _ => if t = 0 then 100 else 101⟩

/-- A constant one-half weight schedule aligned with `Pex`. -/
def Wex : Panel (Option ℚ) :=
  ⟨[0, 1], ["A"], fun _ _ => some (1 / 2)⟩

/-- A weight schedule aligned with `Pex` that is 0 on day 0 and 1 on day 1;
it agrees with `Wzero` on day 0 only. -/
def Wlate : Panel (Option ℚ) :=
  ⟨[0, 1], ["A"], fun t i => if t = 0 ∨ i ≠ 0 then some 0 else some 1⟩

/-- The all-zero weight schedule aligned with `Pex`. -/
def Wzero : Panel (Option ℚ) :=
  ⟨[0, 1], ["A"], fun _ _ => some 0⟩

/-- A weight schedule aligned with `Pex` flipping ticker 0 from +1 to -1. -/
def Wflip : Panel (Option ℚ) :=
  ⟨[0, 1], ["A"], fun t i => if i ≠ 0 then some 0 else if t = 0 then some 1 else some (-1)⟩

/-- An empty-index price panel. -/
def Pempty : Panel ℚ := ⟨[], ["A"], fun _ _ => 0⟩

/-- An empty-index weight schedule aligned with `Pempty`. -/
def Wempty : Panel (Option ℚ) := ⟨[], ["A"], fun _ _ => some 0⟩

/-- Characterisation of the successful path of `run_backtest`. -/
theorem run_backtest_ok_iff (P : Panel ℚ) (W : Panel (Option ℚ)) (tc b c : ℚ)
    (r : BacktestResult) :
    run_backtest P W tc b c = Except.ok r ↔
      P.index = W.index ∧ P.cols = W.cols ∧ P.index.length ≠ 0 ∧
        r = mkResult P.cols.length P.v W.v tc b c := by
  unfold run_backtest _validate_alignment
  by_cases h1 : P.index = W.index
  · by_cases h2 : P.cols = W.cols
    · by_cases h3 : P.index.length = 0
      · have h3' : W.index = [] := by
          rw [← h1]; exact List.length_eq_zero.mp h3
        simp [h1, h2, h3, h3']
      · have h3' : ¬W.index = [] := by
          rw [← h1]; intro hh; exact h3 (by simp [hh])
        simp [h1, h2, h3, h3', eq_comm]
    · simp [h1, h2]
  · simp [h1]

/-- The lagged weight at a positive row is the previous row's weight. -/
theorem shift1_eq (w : ℕ → ℕ → ℚ) (t i : ℕ) (ht : 1 ≤ t) :
    shift1 w t i = w (t - 1) i := by
  unfold shift1
  rw [if_neg (by omega)]

/-- C1: `run_backtest` lags the weight schedule by exactly one day — for every
day t ≥ 1 the gross portfolio return is the sum over assets of the weight
decided at day t-1 times the simple return from day t-1 to day t, the lagged
weight on the first day is 0 for every asset, and the net daily return on the
first day is exactly 0. -/
theorem run_backtest_lags_weights_one_day
    (P : Panel ℚ) (W : Panel (Option ℚ)) (tc b c : ℚ) (r : BacktestResult)
    (h : run_backtest P W tc b c = Except.ok r) :
    (∀ t, 1 ≤ t →
      portfolio_returns P.cols.length P.v W.v t =
        ∑ i ∈ Finset.range P.cols.length, wfill W.v (t - 1) i * pct_change P.v t i) ∧
    (∀ i, r.weights 0 i = 0) ∧ r.daily_returns 0 = 0 := by
  obtain ⟨-, -, -, rfl⟩ := (run_backtest_ok_iff P W tc b c r).mp h
  refine ⟨fun t ht => Finset.sum_congr rfl fun i _ => ?_, fun i => ?_, ?_⟩
  · rw [shift1_eq _ _ _ ht]
  · simp [mkResult, shift1]
  · simp [mkResult, daily_returns_final]

/-- Witness for C1 at the concrete panel `Pex`/`Wex`. -/
theorem run_backtest_lags_weights_one_day_witness :
    (portfolio_returns Pex.cols.length Pex.v Wex.v 1 =
      ∑ i ∈ Finset.range Pex.cols.length, wfill Wex.v 0 i * pct_change Pex.v 1 i) ∧
    (mkResult Pex.cols.length Pex.v Wex.v 0 0 0).weights 0 0 = 0 ∧
    (mkResult Pex.cols.length Pex.v Wex.v 0 0 0).daily_returns 0 = 0 := by
  have h : run_backtest Pex Wex 0 0 0 =
      Except.ok (mkResult Pex.cols.length Pex.v Wex.v 0 0 0) := rfl
  have H := run_backtest_lags_weights_one_day Pex Wex 0 0 0 _ h
  exact ⟨H.1 1 le_rfl, H.2.1 0, H.2.2⟩

/-- C4: the returned equity curve starts at exactly 1 and compounds the
returned post-cost daily return series: equity[t] = equity[t-1] * (1 + r[t])
for every t ≥ 1. -/
theorem run_backtest_equity_normalization
    (P : Panel ℚ) (W : Panel (Option ℚ)) (tc b c : ℚ) (r : BacktestResult)
    (h : run_backtest P W tc b c = Except.ok r) :
    r.equity_curve 0 = 1 ∧
    ∀ t, 1 ≤ t → r.equity_curve t = r.equity_curve (t - 1) * (1 + r.daily_returns t) := by
  obtain ⟨-, -, -, rfl⟩ := (run_backtest_ok_iff P W tc b c r).mp h
  constructor
  · simp [mkResult, equity_curve_of]
  · intro t ht
    match t, ht with
    | 1, _ =>
        simp [mkResult, equity_curve_of, cumprod, daily_returns_final]
    | s + 2, _ =>
        show equity_curve_of _ _ _ _ _ _ (s + 2) =
          equity_curve_of _ _ _ _ _ _ (s + 2 - 1) * _
        simp [equity_curve_of, cumprod, mkResult]

/-- Witness for C4 at the concrete panel `Pex`/`Wex`. -/
theorem run_backtest_equity_normalization_witness :
    (mkResult Pex.cols.length Pex.v Wex.v 0 0 0).equity_curve 0 = 1 ∧
    (mkResult Pex.cols.length Pex.v Wex.v 0 0 0).equity_curve 1 =
      (mkResult Pex.cols.length Pex.v Wex.v 0 0 0).equity_curve 0 *
        (1 + (mkResult Pex.cols.length Pex.v Wex.v 0 0 0).daily_returns 1) := by
  have h : run_backtest Pex Wex 0 0 0 =
      Except.ok (mkResult Pex.cols.length Pex.v Wex.v 0 0 0) := rfl
  have H := run_backtest_equity_normalization Pex Wex 0 0 0 _ h
  exact ⟨H.1, H.2 1 le_rfl⟩

/-- The net daily return at day t is unchanged when the weight schedule is
replaced by one that agrees at day t-1, provided either the transaction cost
rate is zero or the schedules also agree at day t (the turnover term reads the
day-t weight). -/
theorem daily_returns_final_congr (N : ℕ) (p : ℕ → ℕ → ℚ)
    (wA wB : ℕ → ℕ → Option ℚ) (tc b c : ℚ) (t : ℕ)
    (hprev : ∀ i, wA (t - 1) i = wB (t - 1) i)
    (hcur : tc = 0 ∨ ∀ i, wA t i = wB t i) :
    daily_returns_final N p wA tc b c t = daily_returns_final N p wB tc b c t := by
  unfold daily_returns_final
  by_cases ht : t = 0
  · simp [ht]
  · have h1 : 1 ≤ t := Nat.one_le_iff_ne_zero.mpr ht
    have hw : ∀ i, wfill wA (t - 1) i = wfill wB (t - 1) i := fun i => by
      unfold wfill; rw [hprev i]
    have hs : ∀ i, shift1 (wfill wA) t i = shift1 (wfill wB) t i := fun i => by
      rw [shift1_eq _ _ _ h1, shift1_eq _ _ _ h1, hw i]
    have hport : portfolio_returns N p wA t = portfolio_returns N p wB t :=
      Finset.sum_congr rfl fun i _ => by rw [hs i]
    have hshort : short_notional N wA t = short_notional N wB t :=
      Finset.sum_congr rfl fun i _ => by rw [hs i]
    have hcash : cash_weight N wA t = cash_weight N wB t := by
      unfold cash_weight net_exposure
      rw [Finset.sum_congr rfl fun i _ => hs i]
    rcases hcur with h0 | hcur
    · subst h0
      unfold returns_after_costs
      rw [hport, hshort, hcash]
      ring_nf
    · have hturn : turnover_at N wA t = turnover_at N wB t := by
        unfold turnover_at
        rw [if_neg ht, if_neg ht]
        congr 1
        exact Finset.sum_congr rfl fun i _ => by
          unfold wfill; rw [hprev i, hcur i]
      unfold returns_after_costs
      rw [hport, hshort, hcash, hturn]

/-- C2 (amended): the realized return on the first day is exactly 0 for any
cost parameters; day t's realized return depends only on weight values set at
day t or earlier (two runs over the same prices whose weight schedules agree
through day t produce the same day-t return); and when the transaction cost
rate is zero the stronger statement of the claim holds — agreement through day
t-1 already fixes the day-t return. -/
theorem run_backtest_no_lookahead
    (P : Panel ℚ) (WA WB : Panel (Option ℚ)) (tc b c : ℚ)
    (rA rB : BacktestResult) (t : ℕ)
    (hA : run_backtest P WA tc b c = Except.ok rA)
    (hB : run_backtest P WB tc b c = Except.ok rB) :
    rA.daily_returns 0 = 0 ∧
    ((∀ s, s ≤ t → ∀ i, WA.v s i = WB.v s i) →
      rA.daily_returns t = rB.daily_returns t) ∧
    (tc = 0 → (∀ s, s ≤ t - 1 → ∀ i, WA.v s i = WB.v s i) →
      rA.daily_returns t = rB.daily_returns t) := by
  obtain ⟨-, -, -, rfl⟩ := (run_backtest_ok_iff P WA tc b c rA).mp hA
  obtain ⟨-, -, -, rfl⟩ := (run_backtest_ok_iff P WB tc b c rB).mp hB
  refine ⟨by simp [mkResult, daily_returns_final], fun hagree => ?_, fun h0 hagree => ?_⟩
  · exact daily_returns_final_congr _ _ _ _ _ _ _ _
      (fun i => hagree (t - 1) (Nat.sub_le t 1) i) (Or.inr fun i => hagree t le_rfl i)
  · exact daily_returns_final_congr _ _ _ _ _ _ _ _
      (fun i => hagree (t - 1) le_rfl i) (Or.inl h0)

/-- Witness for the amended C2: two schedules over `Pex` agreeing on day 0
(`Wzero` and `Wlate`) give the same zero-cost return on day 1. -/
theorem run_backtest_no_lookahead_witness :
    (mkResult Pex.cols.length Pex.v Wzero.v 0 0 0).daily_returns 0 = 0 ∧
    (mkResult Pex.cols.length Pex.v Wzero.v 0 0 0).daily_returns 1 =
      (mkResult Pex.cols.length Pex.v Wlate.v 0 0 0).daily_returns 1 := by
  have hA : run_backtest Pex Wzero 0 0 0 =
      Except.ok (mkResult Pex.cols.length Pex.v Wzero.v 0 0 0) := rfl
  have hB : run_backtest Pex Wlate 0 0 0 =
      Except.ok (mkResult Pex.cols.length Pex.v Wlate.v 0 0 0) := rfl
  have H := run_backtest_no_lookahead Pex Wzero Wlate 0 0 0 _ _ 1 hA hB
  refine ⟨H.1, H.2.2 rfl fun s hs i => ?_⟩
  have hs0 : s = 0 := Nat.le_zero.mp hs
  subst hs0
  simp [Wzero, Wlate]

/-- C2 counterexample: with a nonzero transaction cost the claim as stated
fails — the schedules `Wzero` and `Wlate` agree on all days up to and
including day 0, yet the realized returns on day 1 differ (0 versus -1/2),
because the turnover cost charged on day 1 reads the day-1 weight. -/
theorem run_backtest_no_lookahead_counterexample :
    Wzero.v 0 0 = Wlate.v 0 0 ∧
    (run_backtest Pex Wzero 10000 0 0).map (fun r => r.daily_returns 1) =
      Except.ok 0 ∧
    (run_backtest Pex Wlate 10000 0 0).map (fun r => r.daily_returns 1) =
      Except.ok (-(1 / 2)) ∧
    (0 : ℚ) ≠ -(1 / 2) := by
  refine ⟨rfl, ?_, ?_, by norm_num⟩
  · have hA : run_backtest Pex Wzero 10000 0 0 =
        Except.ok (mkResult Pex.cols.length Pex.v Wzero.v 10000 0 0) := rfl
    rw [hA]
    simp only [Except.map, Except.ok.injEq]
    norm_num [mkResult, daily_returns_final, returns_after_costs, portfolio_returns,
      turnover_at, short_notional, cash_weight, net_exposure, shift1, wfill, pct_change,
      TRADING_DAYS, Pex, Wzero, Finset.sum_range_succ, Finset.sum_range_zero]
  · have hB : run_backtest Pex Wlate 10000 0 0 =
        Except.ok (mkResult Pex.cols.length Pex.v Wlate.v 10000 0 0) := rfl
    rw [hB]
    simp only [Except.map, Except.ok.injEq]
    norm_num [mkResult, daily_returns_final, returns_after_costs, portfolio_returns,
      turnover_at, short_notional, cash_weight, net_exposure, shift1, wfill, pct_change,
      TRADING_DAYS, Pex, Wlate, Finset.sum_range_succ, Finset.sum_range_zero]

/-- C3: turnover on day t ≥ 1 equals half the L1 day-over-day change of the
unlagged (filled) target weights and is 0 on the first day; the transaction
cost subtracted on day t is turnover times transaction_cost_bps/10000 (shown
by the exact decomposition of the net return); and flipping one asset from +1
to -1 while the other assets are unchanged gives turnover exactly 1. -/
theorem run_backtest_turnover_half_convention
    (P : Panel ℚ) (W : Panel (Option ℚ)) (tc b c : ℚ) (r : BacktestResult) (t i : ℕ)
    (h : run_backtest P W tc b c = Except.ok r)
    (ht : 1 ≤ t) (hi : i < P.cols.length) :
    r.turnover 0 = 0 ∧
    r.turnover t =
      (∑ j ∈ Finset.range P.cols.length, |wfill W.v t j - wfill W.v (t - 1) j|) / 2 ∧
    r.daily_returns t =
      portfolio_returns P.cols.length P.v W.v t - (tc / 10000) * r.turnover t
        - (b / TRADING_DAYS) * short_notional P.cols.length W.v t
        + (c / TRADING_DAYS) * cash_weight P.cols.length W.v t ∧
    ((wfill W.v (t - 1) i = 1 ∧ wfill W.v t i = -1 ∧
        ∀ j, j ≠ i → wfill W.v t j = wfill W.v (t - 1) j) →
      r.turnover t = 1) := by
  obtain ⟨-, -, -, rfl⟩ := (run_backtest_ok_iff P W tc b c r).mp h
  have ht0 : t ≠ 0 := by omega
  refine ⟨by simp [mkResult, turnover_at], ?_, ?_, ?_⟩
  · show turnover_at _ _ _ = _
    unfold turnover_at
    rw [if_neg ht0]
  · show daily_returns_final _ _ _ _ _ _ _ = _
    unfold daily_returns_final
    rw [if_neg ht0]
    rfl
  · rintro ⟨h1, h2, h3⟩
    show turnover_at _ _ _ = 1
    unfold turnover_at
    rw [if_neg ht0]
    rw [Finset.sum_eq_single_of_mem i (Finset.mem_range.mpr hi)
      (fun j _ hj => by rw [h3 j hj]; simp)]
    rw [h1, h2]
    norm_num

/-- Witness for C3: flipping the single asset of `Wflip` from +1 to -1 between
day 0 and day 1, with 10 bps of cost. -/
theorem run_backtest_turnover_half_convention_witness :
    (mkResult Pex.cols.length Pex.v Wflip.v 10 0 0).turnover 0 = 0 ∧
    (mkResult Pex.cols.length Pex.v Wflip.v 10 0 0).turnover 1 = 1 ∧
    (mkResult Pex.cols.length Pex.v Wflip.v 10 0 0).daily_returns 1 =
      portfolio_returns Pex.cols.length Pex.v Wflip.v 1
        - (10 / 10000) * (mkResult Pex.cols.length Pex.v Wflip.v 10 0 0).turnover 1
        - (0 / TRADING_DAYS) * short_notional Pex.cols.length Wflip.v 1
        + (0 / TRADING_DAYS) * cash_weight Pex.cols.length Wflip.v 1 := by
  have h : run_backtest Pex Wflip 10 0 0 =
      Except.ok (mkResult Pex.cols.length Pex.v Wflip.v 10 0 0) := rfl
  have H := run_backtest_turnover_half_convention Pex Wflip 10 0 0 _ 1 0 h le_rfl
    (by simp [Pex])
  have hflip : wfill Wflip.v 0 0 = 1 ∧ wfill Wflip.v 1 0 = -1 ∧
      ∀ j, j ≠ 0 → wfill Wflip.v 1 j = wfill Wflip.v 0 j := by
    refine ⟨by simp [wfill, Wflip], by simp [wfill, Wflip], fun j hj => by simp [wfill, Wflip, hj]⟩
  exact ⟨H.1, H.2.2.2 hflip, H.2.2.1⟩

/-- C5 (amended): configuration errors are raised immediately —
`run_backtest` errors exactly when the indices differ, the column lists
differ, or (the amendment) the shared index is empty; `compute_monthly_features`
errors exactly when one of its lookback windows is non-positive; and
`build_monthly_ls_weights_simple` errors exactly when the risk-off mode is not
one of flat, long_pharma, reverse. -/
theorem config_errors_raise_immediately
    (P : Panel ℚ) (W : Panel (Option ℚ)) (tc b c : ℚ)
    (tnx spy vix : ℕ → ℚ) (lr lspy lvix : ℤ)
    (regime : ℕ → ℤ) (monthOfDay : ℕ → Option ℕ) (long short mode : String) :
    ((P.index ≠ W.index ∨ P.cols ≠ W.cols) → (run_backtest P W tc b c).isOk = false) ∧
    (P.index = W.index → P.cols = W.cols → P.index ≠ [] →
      (run_backtest P W tc b c).isOk = true) ∧
    ((compute_monthly_features tnx spy vix lr lspy lvix).isOk = true ↔
      0 < lr ∧ 0 < lspy ∧ 0 < lvix) ∧
    ((build_monthly_ls_weights_simple regime monthOfDay long short mode).isOk = true ↔
      mode ∈ (["flat", "long_pharma", "reverse"] : List String)) := by
  refine ⟨?_, ?_, ?_, ?_⟩
  · intro hbad
    unfold run_backtest _validate_alignment
    rcases hbad with h1 | h2
    · rw [if_pos h1]; rfl
    · by_cases h1 : P.index = W.index
      · rw [if_neg (fun hh => hh h1), if_pos h2]; rfl
      · rw [if_pos h1]; rfl
  · intro h1 h2 h3
    have hlen : P.index.length ≠ 0 := by
      simpa [List.length_eq_zero] using h3
    rw [(run_backtest_ok_iff P W tc b c
      (mkResult P.cols.length P.v W.v tc b c)).mpr ⟨h1, h2, hlen, rfl⟩]
    rfl
  · unfold compute_monthly_features
    by_cases hbad : lr ≤ 0 ∨ lspy ≤ 0 ∨ lvix ≤ 0
    · rw [if_pos hbad]
      constructor
      · intro h; cases h
      · intro h; omega
    · rw [if_neg hbad]
      constructor
      · intro _; omega
      · intro _; rfl
  · unfold build_monthly_ls_weights_simple
    by_cases hmode : mode ∈ (["flat", "long_pharma", "reverse"] : List String)
    · simp [hmode, Except.isOk, Except.toBool]
    · simp [hmode, Except.isOk, Except.toBool]

/-- Witness for the amended C5: a misaligned pair errors, an aligned non-empty
pair succeeds, and the two validation iffs instantiated at in-range values. -/
theorem config_errors_raise_immediately_witness :
    (run_backtest Pex Wempty 0 0 0).isOk = false ∧
    (run_backtest Pex Wex 0 0 0).isOk = true ∧
    ((compute_monthly_features (fun _ => 0) (fun _ => 0) (fun _ => 0) 6 6 1).isOk = true ↔
      (0 : ℤ) < 6 ∧ (0 : ℤ) < 6 ∧ (0 : ℤ) < 1) ∧
    ((build_monthly_ls_weights_simple (fun _ => 0) (fun _ => none) "XBI" "XPH" "flat").isOk
        = true ↔
      "flat" ∈ (["flat", "long_pharma", "reverse"] : List String)) := by
  refine ⟨?_, ?_, ?_, ?_⟩
  · exact (config_errors_raise_immediately Pex Wempty 0 0 0 (fun _ => 0) (fun _ => 0)
      (fun _ => 0) 6 6 1 (fun _ => 0) (fun _ => none) "XBI" "XPH" "flat").1
      (Or.inl (by decide))
  · exact (config_errors_raise_immediately Pex Wex 0 0 0 (fun _ => 0) (fun _ => 0)
      (fun _ => 0) 6 6 1 (fun _ => 0) (fun _ => none) "XBI" "XPH" "flat").2.1
      rfl rfl (by decide)
  · exact (config_errors_raise_immediately Pex Wex 0 0 0 (fun _ => 0) (fun _ => 0)
      (fun _ => 0) 6 6 1 (fun _ => 0) (fun _ => none) "XBI" "XPH" "flat").2.2.1
  · exact (config_errors_raise_immediately Pex Wex 0 0 0 (fun _ => 0) (fun _ => 0)
      (fun _ => 0) 6 6 1 (fun _ => 0) (fun _ => none) "XBI" "XPH" "flat").2.2.2

/-- C5 counterexample: the converse direction of the claim as stated fails —
`Pempty`/`Wempty` satisfy the stated precondition (identical index and
columns) yet `run_backtest` raises, because `equity_curve.iloc[0] = 1.0` fails
on an empty series. -/
theorem config_errors_counterexample :
    Pempty.index = Wempty.index ∧ Pempty.cols = Wempty.cols ∧
      (run_backtest Pempty Wempty 0 0 0).isOk = false := ⟨rfl, rfl, rfl⟩

/-- C10: `run_backtest` on aligned but empty inputs raises (the assignment of
1.0 into position 0 of the empty equity curve fails) instead of returning a
result with empty series; a non-empty index is an unstated precondition. -/
theorem run_backtest_empty_raises
    (P : Panel ℚ) (W : Panel (Option ℚ)) (tc b c : ℚ)
    (h1 : P.index = []) (h2 : W.index = P.index) (h3 : W.cols = P.cols) :
    run_backtest P W tc b c = Except.error "iloc cannot enlarge its target object" := by
  unfold run_backtest _validate_alignment
  simp [h1, h2.symm, h3.symm, h2.trans h1]

/-- Witness for C10 on the concrete empty aligned pair. -/
theorem run_backtest_empty_raises_witness :
    run_backtest Pempty Wempty 0 0 0 =
      Except.error "iloc cannot enlarge its target object" :=
  run_backtest_empty_raises Pempty Wempty 0 0 0 rfl rfl rfl

/-- C8: for every monthly price series and positive lookback L, the momentum
signal at month m ≥ L+1 equals the raw L-month lookback return computed
through month m-1 (price[m-1]/price[m-1-L] - 1), and the first L+1 months of
the output are missing. -/
theorem compute_momentum_signal_shift_law (p : ℕ → ℚ) (L m : ℕ) (hL : 1 ≤ L) :
    (L + 1 ≤ m →
      compute_momentum_signal p L m = some (p (m - 1) / p (m - 1 - L) - 1)) ∧
    (m < L + 1 → compute_momentum_signal p L m = none) := by
  constructor
  · intro hm
    unfold compute_momentum_signal raw_lookback_return
    rw [if_neg (by omega), if_pos (by omega)]
  · intro hm
    unfold compute_momentum_signal
    by_cases h0 : m = 0
    · rw [if_pos h0]
    · rw [if_neg h0]
      unfold raw_lookback_return
      rw [if_neg (by omega)]

/-- Witness for C8 with prices 1, 2, 3, … and lookback 1. -/
theorem compute_momentum_signal_shift_law_witness :
    compute_momentum_signal (fun m : ℕ => (m + 1 : ℚ)) 1 2 =
      some ((fun m : ℕ => (m + 1 : ℚ)) (2 - 1) / (fun m : ℕ => (m + 1 : ℚ)) (2 - 1 - 1) - 1) ∧
    compute_momentum_signal (fun m : ℕ => (m + 1 : ℚ)) 1 1 = none := by
  have H2 := compute_momentum_signal_shift_law (fun m : ℕ => (m + 1 : ℚ)) 1 2 le_rfl
  have H1 := compute_momentum_signal_shift_law (fun m : ℕ => (m + 1 : ℚ)) 1 1 le_rfl
  exact ⟨H2.1 le_rfl, H1.2 (by omega)⟩

/-- C6: in the risk-balanced mode a month's legs are both flat unless the
regime label is 1, the spread momentum is present and strictly above the
threshold, and both legs' vols are present and strictly positive; when all of
these hold (with a positive target gross exposure and distinct tickers) the
legs are inverse-vol weighted, the long leg positive, the short leg negative,
their absolute weights summing exactly to the target gross exposure, and all
other tickers flat. -/
theorem ls_risk_balanced_month_gate
    (reg : ℤ) (smom : Option ℚ) (thr : ℚ) (volL volS : Option ℚ)
    (long short : String) (g : ℚ) :
    (¬(reg = 1 ∧ ∃ sm, smom = some sm ∧ thr < sm ∧
        (∃ vL, volL = some vL ∧ 0 < vL) ∧ ∃ vS, volS = some vS ∧ 0 < vS) →
      ∀ c, ls_risk_balanced_month reg smom thr volL volS long short g c = 0) ∧
    (∀ sm vL vS, reg = 1 → smom = some sm → thr < sm →
      volL = some vL → 0 < vL → volS = some vS → 0 < vS → 0 < g → long ≠ short →
      ls_risk_balanced_month reg smom thr volL volS long short g long =
        (1 / vL) / (1 / vL + 1 / vS) * g ∧
      ls_risk_balanced_month reg smom thr volL volS long short g short =
        -((1 / vS) / (1 / vL + 1 / vS) * g) ∧
      0 < ls_risk_balanced_month reg smom thr volL volS long short g long ∧
      ls_risk_balanced_month reg smom thr volL volS long short g short < 0 ∧
      |ls_risk_balanced_month reg smom thr volL volS long short g long| +
        |ls_risk_balanced_month reg smom thr volL volS long short g short| = g ∧
      ∀ c, c ≠ long → c ≠ short →
        ls_risk_balanced_month reg smom thr volL volS long short g c = 0) := by
  constructor
  · intro hgate c
    have hzero : ls_month_pair reg smom thr volL volS g = (0, 0) := by
      cases smom with
      | none => rfl
      | some sm =>
          show (if reg = 1 ∧ thr < sm then
            compute_risk_balanced_ls_weights volL volS g else (0, 0)) = (0, 0)
          by_cases hc : reg = 1 ∧ thr < sm
          · rw [if_pos hc]
            cases volL with
            | none => rfl
            | some vL =>
                cases volS with
                | none => rfl
                | some vS =>
                    show (if vL ≤ 0 ∨ vS ≤ 0 then ((0 : ℚ), (0 : ℚ)) else _) = (0, 0)
                    by_cases hv : vL ≤ 0 ∨ vS ≤ 0
                    · rw [if_pos hv]
                    · exfalso
                      push_neg at hv
                      exact hgate ⟨hc.1, sm, rfl, hc.2,
                        ⟨vL, rfl, hv.1⟩, ⟨vS, rfl, hv.2⟩⟩
          · rw [if_neg hc]
    unfold ls_risk_balanced_month
    rw [hzero]
    split_ifs <;> rfl
  · intro sm vL vS hreg hsm hthr hvL hvLpos hvS hvSpos hg hne
    subst hreg hsm hvL hvS
    have htot : 0 < 1 / vL + 1 / vS := by positivity
    have hpair : ls_month_pair 1 (some sm) thr (some vL) (some vS) g =
        (1 / vL / (1 / vL + 1 / vS) * g, -(1 / vS / (1 / vL + 1 / vS) * g)) := by
      show (if (1 : ℤ) = 1 ∧ thr < sm then
        compute_risk_balanced_ls_weights (some vL) (some vS) g else (0, 0)) = _
      rw [if_pos ⟨rfl, hthr⟩]
      show (if vL ≤ 0 ∨ vS ≤ 0 then ((0 : ℚ), (0 : ℚ))
        else if 1 / vL + 1 / vS ≤ 0 then (0, 0)
        else (1 / vL / (1 / vL + 1 / vS) * g, -(1 / vS / (1 / vL + 1 / vS) * g))) = _
      rw [if_neg (by push_neg; exact ⟨hvLpos, hvSpos⟩), if_neg (not_le.mpr htot)]
    have hlong : ls_risk_balanced_month 1 (some sm) thr (some vL) (some vS) long short g long =
        1 / vL / (1 / vL + 1 / vS) * g := by
      unfold ls_risk_balanced_month
      rw [if_neg hne, if_pos rfl, hpair]
    have hshort : ls_risk_balanced_month 1 (some sm) thr (some vL) (some vS) long short g short =
        -(1 / vS / (1 / vL + 1 / vS) * g) := by
      unfold ls_risk_balanced_month
      rw [if_pos rfl, hpair]
    have hlpos : 0 < 1 / vL / (1 / vL + 1 / vS) * g := by positivity
    have hspos : 0 < 1 / vS / (1 / vL + 1 / vS) * g := by positivity
    refine ⟨hlong, hshort, hlong ▸ hlpos, hshort ▸ neg_lt_zero.mpr hspos, ?_, ?_⟩
    · rw [hlong, hshort, abs_of_pos hlpos, abs_neg, abs_of_pos hspos]
      field_simp
      ring
    · intro c hcl hcs
      unfold ls_risk_balanced_month
      rw [if_neg hcs, if_neg hcl]

/-- Witness for C6: a risk-off month is flat, and a gated-open month with vols
1/10 and 3/10 produces inverse-vol legs of gross exactly 1. -/
theorem ls_risk_balanced_month_gate_witness :
    ls_risk_balanced_month 0 (some 1) 0 (some 1) (some 1) "XBI" "XPH" 1 "XBI" = 0 ∧
    ls_risk_balanced_month 1 (some 1) 0 (some (1 / 10)) (some (3 / 10)) "XBI" "XPH" 1 "XBI" =
      (1 / (1 / 10)) / (1 / (1 / 10) + 1 / (3 / 10)) * 1 ∧
    |ls_risk_balanced_month 1 (some 1) 0 (some (1 / 10)) (some (3 / 10)) "XBI" "XPH" 1 "XBI"| +
      |ls_risk_balanced_month 1 (some 1) 0 (some (1 / 10)) (some (3 / 10)) "XBI" "XPH" 1 "XPH"|
      = 1 := by
  have H1 := (ls_risk_balanced_month_gate 0 (some 1) 0 (some 1) (some 1) "XBI" "XPH" 1).1
  have H2 := (ls_risk_balanced_month_gate 1 (some 1) 0 (some (1 / 10)) (some (3 / 10))
    "XBI" "XPH" 1).2 1 (1 / 10) (3 / 10) rfl rfl (by norm_num) rfl (by norm_num) rfl
    (by norm_num) (by norm_num) (by decide)
  refine ⟨H1 ?_ "XBI", H2.1, H2.2.2.2.2.1⟩
  rintro ⟨h, -⟩
  exact absurd h (by decide)

/-- Pulling a non-negative factor out of a sum of absolute values (lists). -/
theorem list_sum_abs_mul (l : List String) (f : String → ℚ) (k : ℚ) (hk : 0 ≤ k) :
    (l.map (fun d => |f d * k|)).sum = (l.map (fun d => |f d|)).sum * k := by
  induction l with
  | nil => simp
  | cons a tl ih =>
      rw [List.map_cons, List.sum_cons, ih, List.map_cons, List.sum_cons, abs_mul,
        abs_of_nonneg hk, add_mul]

/-- Pulling a non-negative factor out of a sum of absolute values (ranges). -/
theorem finset_sum_abs_mul (N : ℕ) (f : ℕ → ℚ) (k : ℚ) (hk : 0 ≤ k) :
    (∑ i ∈ Finset.range N, |f i * k|) = (∑ i ∈ Finset.range N, |f i|) * k := by
  rw [Finset.sum_mul]
  exact Finset.sum_congr rfl fun i _ => by rw [abs_mul, abs_of_nonneg hk]

/-- Gross exposure only depends on the values of the row. -/
theorem gross_exposure_cols_congr (cols : List String) (w w' : ℕ → String → ℚ)
    (t t' : ℕ) (h : ∀ c, w t c = w' t' c) :
    gross_exposure_cols cols w t = gross_exposure_cols cols w' t' := by
  unfold gross_exposure_cols
  rw [List.map_congr_left (fun c _ => by rw [h c])]

/-- An all-zero row has zero gross exposure. -/
theorem gross_exposure_cols_zero (cols : List String) (w : ℕ → String → ℚ)
    (t : ℕ) (h : ∀ c, w t c = 0) : gross_exposure_cols cols w t = 0 := by
  unfold gross_exposure_cols
  apply List.sum_eq_zero
  intro x hx
  obtain ⟨c, -, rfl⟩ := List.mem_map.mp hx
  rw [h c]
  simp

/-- Over a duplicate-free column list containing d, the indicator row at d has
gross exposure exactly 1. -/
theorem sum_abs_indicator (cols : List String) (d : String) (hnd : cols.Nodup)
    (hd : d ∈ cols) :
    (cols.map (fun c => |if c = d then (1 : ℚ) else 0|)).sum = 1 := by
  induction cols with
  | nil => cases hd
  | cons a tl ih =>
      rw [List.nodup_cons] at hnd
      rcases List.mem_cons.mp hd with h | h
      · subst h
        rw [List.map_cons, List.sum_cons, if_pos rfl]
        have hz : (tl.map (fun c => |if c = d then (1 : ℚ) else 0|)).sum = 0 := by
          apply List.sum_eq_zero
          intro x hx
          obtain ⟨c, hc, rfl⟩ := List.mem_map.mp hx
          rw [if_neg (by rintro rfl; exact hnd.1 hc)]
          simp
        simp [hz]
      · have hne : a ≠ d := by rintro rfl; exact hnd.1 h
        rw [List.map_cons, List.sum_cons, if_neg hne]
        simp [ih hnd.2 h]

/-- A day over the cap is scaled by cap/gross. -/
theorem recap_over (cols : List String) (w : ℕ → String → ℚ) (mg : ℚ) (t : ℕ)
    (c : String) (hover : mg < gross_exposure_cols cols w t) :
    recap_gross_leverage cols w mg t c =
      w t c * (mg / gross_exposure_cols cols w t) := by
  unfold recap_gross_leverage
  rw [if_pos hover]

/-- A day at or under the cap is left unchanged. -/
theorem recap_not_over (cols : List String) (w : ℕ → String → ℚ) (mg : ℚ) (t : ℕ)
    (c : String) (hle : gross_exposure_cols cols w t ≤ mg) :
    recap_gross_leverage cols w mg t c = w t c := by
  unfold recap_gross_leverage
  rw [if_neg (not_lt.mpr hle)]

/-- After the re-cap, every day's gross exposure is at most the (positive) cap. -/
theorem recap_gross_le (cols : List String) (w : ℕ → String → ℚ) (mg : ℚ)
    (hmg : 0 < mg) (t : ℕ) :
    gross_exposure_cols cols (recap_gross_leverage cols w mg) t ≤ mg := by
  by_cases hover : mg < gross_exposure_cols cols w t
  · have hG : 0 < gross_exposure_cols cols w t := hmg.trans hover
    have hk : 0 ≤ mg / gross_exposure_cols cols w t := le_of_lt (div_pos hmg hG)
    have heq : gross_exposure_cols cols (recap_gross_leverage cols w mg) t =
        gross_exposure_cols cols w t * (mg / gross_exposure_cols cols w t) := by
      rw [gross_exposure_cols_congr cols (recap_gross_leverage cols w mg)
        (fun s c => w s c * (mg / gross_exposure_cols cols w t)) t t
        (fun c => recap_over cols w mg t c hover)]
      unfold gross_exposure_cols
      exact list_sum_abs_mul cols (fun d => w t d) _ hk
    rw [heq, mul_comm, div_mul_cancel₀ _ (ne_of_gt hG)]
  · rw [gross_exposure_cols_congr cols _ w t t
      (fun c => recap_not_over cols w mg t c (not_lt.mp hover))]
    exact not_lt.mp hover

/-- Characterisation of the successful path of `cap_gross_leverage`. -/
theorem cap_gross_leverage_ok_iff (N : ℕ) (w : ℕ → ℕ → ℚ) (mg : ℚ)
    (capped : ℕ → ℕ → ℚ) :
    cap_gross_leverage N w mg = Except.ok capped ↔
      ¬mg ≤ 0 ∧ capped = fun t i =>
        if mg < gross_exposure N w t then w t i * (mg / gross_exposure N w t)
        else w t i := by
  unfold cap_gross_leverage
  by_cases h : mg ≤ 0 <;> simp [h, eq_comm]

/-- C9: the daily schedule returned by `build_monthly_rotation_weights` has
gross exposure at most the (positive) leverage cap on every day; and
`cap_gross_leverage` returns a schedule whose gross exposure is at most the
cap on every day, scaling each violating day's weights by the common factor
cap/gross and leaving non-violating days unchanged. -/
theorem rotation_and_cap_gross_leverage_invariant
    (sqrtQ : ℚ → ℚ) (cols : List String) (mp : ℕ → String → ℚ)
    (use12 : Bool) (lb : ℕ) (useTs : Bool) (tsLb : ℕ) (useF : Bool)
    (xlv : String) (volAt : ℕ → String → Option ℚ) (topk : ℕ) (tv : ℚ)
    (defT : Option String) (defOn : Bool) (monthOfDay : ℕ → Option ℕ)
    (N : ℕ) (w : ℕ → ℕ → ℚ) (mg : ℚ) (capped : ℕ → ℕ → ℚ)
    (hmg : 0 < mg)
    (hcap : cap_gross_leverage N w mg = Except.ok capped) :
    (∀ t, gross_exposure_cols cols
      (build_monthly_rotation_weights sqrtQ cols mp use12 lb useTs tsLb useF xlv
        volAt topk tv mg defT defOn monthOfDay) t ≤ mg) ∧
    (∀ t, gross_exposure N capped t ≤ mg) ∧
    (∀ t i, mg < gross_exposure N w t →
      capped t i = w t i * (mg / gross_exposure N w t)) ∧
    (∀ t i, gross_exposure N w t ≤ mg → capped t i = w t i) := by
  obtain ⟨-, rfl⟩ := (cap_gross_leverage_ok_iff N w mg capped).mp hcap
  refine ⟨fun t => ?_, fun t => ?_, fun t i hover => by simp only [if_pos hover],
    fun t i hle => by simp only [if_neg (not_lt.mpr hle)]⟩
  · unfold build_monthly_rotation_weights
    exact recap_gross_le cols _ mg hmg t
  · show (∑ i ∈ Finset.range N,
      |if mg < gross_exposure N w t then w t i * (mg / gross_exposure N w t)
       else w t i|) ≤ mg
    by_cases hover : mg < gross_exposure N w t
    · have hG : 0 < gross_exposure N w t := hmg.trans hover
      have hk : 0 ≤ mg / gross_exposure N w t := le_of_lt (div_pos hmg hG)
      simp only [if_pos hover]
      rw [finset_sum_abs_mul N (fun i => w t i) _ hk]
      have hGdef : (∑ i ∈ Finset.range N, |w t i|) = gross_exposure N w t := rfl
      rw [hGdef, mul_comm, div_mul_cancel₀ _ (ne_of_gt hG)]
    · simp only [if_neg hover]
      exact not_lt.mp hover

/-- Witness for C9 at a concrete rotation configuration and a concrete
two-day panel whose gross exposure (2) exceeds the cap (3/2). -/
theorem rotation_and_cap_gross_leverage_invariant_witness :
    gross_exposure_cols ["XBI", "XLV"]
      (build_monthly_rotation_weights (fun q => q) ["XBI", "XLV"] (fun _ _ => 1)
        true 6 false 12 false "XLV" (fun _ _ => none) 2 (1 / 10) (3 / 2)
        (some "XLV") true (fun _ => some 0)) 0 ≤ 3 / 2 ∧
    gross_exposure 1 (fun t i =>
      if (3 / 2 : ℚ) < gross_exposure 1 (fun _ _ => (2 : ℚ)) t then
        (fun _ _ => (2 : ℚ)) t i * (3 / 2 / gross_exposure 1 (fun _ _ => (2 : ℚ)) t)
      else (fun _ _ => (2 : ℚ)) t i) 0 ≤ 3 / 2 := by
  have hcap : cap_gross_leverage 1 (fun _ _ => (2 : ℚ)) (3 / 2) =
      Except.ok (fun t i =>
        if (3 / 2 : ℚ) < gross_exposure 1 (fun _ _ => (2 : ℚ)) t then
          (fun _ _ => (2 : ℚ)) t i * (3 / 2 / gross_exposure 1 (fun _ _ => (2 : ℚ)) t)
        else (fun _ _ => (2 : ℚ)) t i) :=
    (cap_gross_leverage_ok_iff 1 (fun _ _ => (2 : ℚ)) (3 / 2) _).mpr
      ⟨by norm_num, rfl⟩
  have H := rotation_and_cap_gross_leverage_invariant (fun q => q) ["XBI", "XLV"]
    (fun _ _ => 1) true 6 false 12 false "XLV" (fun _ _ => none) 2 (1 / 10)
    (some "XLV") true (fun _ => some 0) 1 (fun _ _ => (2 : ℚ)) (3 / 2) _
    (by norm_num) hcap
  exact ⟨H.1 0, H.2.1 0⟩

/-- A present non-positive trend value makes the month fully flat. -/
theorem rotation_month_flat_on_trend (sqrtQ : ℚ → ℚ) (cols hc : List String)
    (sr : String → Option ℚ) (tsf : Option (String → ℤ))
    (volAt : String → Option ℚ) (topk : ℕ) (tv mg : ℚ) (defT : Option String)
    (defOn : Bool) (v : ℚ) (c : String) (hv : v ≤ 0) :
    rotation_month sqrtQ cols hc sr (some v) tsf volAt topk tv mg defT defOn c
      = 0 := by
  show (if v ≤ 0 then (fun _ => (0 : ℚ))
    else rotation_month_core sqrtQ cols hc sr tsf volAt topk tv mg defT defOn) c
    = 0
  rw [if_pos hv]

/-- With no non-missing score the month goes to cash. -/
theorem rotation_month_core_of_no_scores (sqrtQ : ℚ → ℚ) (cols hc : List String)
    (sr : String → Option ℚ) (tsf : Option (String → ℤ))
    (volAt : String → Option ℚ) (topk : ℕ) (tv mg : ℚ) (defT : Option String)
    (defOn : Bool) (c : String) (h : rotation_scores sr hc = []) :
    rotation_month_core sqrtQ cols hc sr tsf volAt topk tv mg defT defOn c
      = 0 := by
  unfold rotation_month_core
  rw [if_pos h]

/-- With some score present but none positive, the month takes the defensive
allocation. -/
theorem rotation_month_core_of_neg_scores (sqrtQ : ℚ → ℚ) (cols hc : List String)
    (sr : String → Option ℚ) (tsf : Option (String → ℤ))
    (volAt : String → Option ℚ) (topk : ℕ) (tv mg : ℚ) (defT : Option String)
    (defOn : Bool) (c : String) (h1 : rotation_scores sr hc ≠ [])
    (h2 : (rotation_scores sr hc).all (fun kv => decide (kv.2 ≤ 0)) = true) :
    rotation_month_core sqrtQ cols hc sr tsf volAt topk tv mg defT defOn c =
      rotation_month_defensive cols defT defOn c := by
  unfold rotation_month_core
  rw [if_neg h1, if_pos h2]

/-- If a rebalance month's weights are all zero, the built daily schedule is
zero on every day forward-filled from it. -/
theorem build_rotation_flat_of_month_zero (sqrtQ : ℚ → ℚ) (cols : List String)
    (mp : ℕ → String → ℚ) (use12 : Bool) (lb : ℕ) (useTs : Bool) (tsLb : ℕ)
    (useF : Bool) (xlv : String) (volAt : ℕ → String → Option ℚ) (topk : ℕ)
    (tv mg : ℚ) (defT : Option String) (defOn : Bool)
    (monthOfDay : ℕ → Option ℕ) (t m : ℕ) (hm : monthOfDay t = some m)
    (hmg : 0 < mg)
    (hz : ∀ c, rotation_monthly sqrtQ cols mp use12 lb useTs tsLb useF xlv volAt
      topk tv mg defT defOn m c = 0) :
    ∀ c, build_monthly_rotation_weights sqrtQ cols mp use12 lb useTs tsLb useF
      xlv volAt topk tv mg defT defOn monthOfDay t c = 0 := by
  intro c
  have hdaily : ∀ d, rotation_daily
      (rotation_monthly sqrtQ cols mp use12 lb useTs tsLb useF xlv volAt topk tv
        mg defT defOn) monthOfDay t d = 0 := by
    intro d
    unfold rotation_daily
    rw [hm]
    exact hz d
  have hg : gross_exposure_cols cols
      (rotation_daily (rotation_monthly sqrtQ cols mp use12 lb useTs tsLb useF
        xlv volAt topk tv mg defT defOn) monthOfDay) t = 0 :=
    gross_exposure_cols_zero _ _ _ hdaily
  unfold build_monthly_rotation_weights
  rw [recap_not_over _ _ _ _ _ (by rw [hg]; exact le_of_lt hmg)]
  exact hdaily c

/-- When the trend gate does not fire, the month's weights are the core's. -/
theorem rotation_monthly_eq_core (sqrtQ : ℚ → ℚ) (cols : List String)
    (mp : ℕ → String → ℚ) (use12 : Bool) (lb : ℕ) (useTs : Bool) (tsLb : ℕ)
    (useF : Bool) (xlv : String) (volAt : ℕ → String → Option ℚ) (topk : ℕ)
    (tv mg : ℚ) (defT : Option String) (defOn : Bool) (m : ℕ)
    (htrend : ∀ v, rotation_xlv_trend mp useF cols xlv m = some v → 0 < v) :
    ∀ c, rotation_monthly sqrtQ cols mp use12 lb useTs tsLb useF xlv volAt topk
        tv mg defT defOn m c =
      rotation_month_core sqrtQ cols (rotation_hc cols)
        (rotation_score_row mp use12 lb m)
        (rotation_ts_row mp useTs tsLb m) (volAt m) topk tv mg defT defOn c := by
  intro c
  unfold rotation_monthly
  cases hx : rotation_xlv_trend mp useF cols xlv m with
  | none => rfl
  | some v =>
      show (if v ≤ 0 then (fun _ => (0 : ℚ))
        else rotation_month_core sqrtQ cols (rotation_hc cols)
          (rotation_score_row mp use12 lb m) (rotation_ts_row mp useTs tsLb m)
          (volAt m) topk tv mg defT defOn) c = _
      rw [if_neg (not_le.mpr (htrend v hx))]

/-- C7 (amended): with the default defensive-on-negative-momentum behavior,
for any rebalance month (with a duplicate-free column list and leverage cap
≥ 1): (a) a present non-positive benchmark 12-month trend value forces all
weights of the month to exactly 0, defensive ticker included; (b) when the
trend gate does not fire and at least one momentum score is non-missing with
all non-missing scores ≤ 0, the month puts weight exactly 1 on the defensive
ticker when one is configured and present in the universe, and is all zeros
when none is configured or it is absent; (c) when every score is missing the
month is all zeros even if a defensive ticker is configured. -/
theorem rotation_trend_filter_and_defensive
    (sqrtQ : ℚ → ℚ) (cols : List String) (mp : ℕ → String → ℚ)
    (use12 : Bool) (lb : ℕ) (useTs : Bool) (tsLb : ℕ) (useF : Bool)
    (xlv : String) (volAt : ℕ → String → Option ℚ) (topk : ℕ) (tv mg : ℚ)
    (defT : Option String) (monthOfDay : ℕ → Option ℕ) (t m : ℕ)
    (hm : monthOfDay t = some m) (hmg : 1 ≤ mg) (hnd : cols.Nodup) :
    (∀ v, rotation_xlv_trend mp useF cols xlv m = some v → v ≤ 0 →
      ∀ c, build_monthly_rotation_weights sqrtQ cols mp use12 lb useTs tsLb useF
        xlv volAt topk tv mg defT true monthOfDay t c = 0) ∧
    ((∀ v, rotation_xlv_trend mp useF cols xlv m = some v → 0 < v) →
      rotation_scores (rotation_score_row mp use12 lb m) (rotation_hc cols) ≠ [] →
      (rotation_scores (rotation_score_row mp use12 lb m) (rotation_hc cols)).all
        (fun kv => decide (kv.2 ≤ 0)) = true →
      (∀ d, defT = some d → d ∈ cols →
        build_monthly_rotation_weights sqrtQ cols mp use12 lb useTs tsLb useF xlv
          volAt topk tv mg defT true monthOfDay t d = 1 ∧
        ∀ c, c ≠ d →
          build_monthly_rotation_weights sqrtQ cols mp use12 lb useTs tsLb useF
            xlv volAt topk tv mg defT true monthOfDay t c = 0) ∧
      (defT = none →
        ∀ c, build_monthly_rotation_weights sqrtQ cols mp use12 lb useTs tsLb
          useF xlv volAt topk tv mg defT true monthOfDay t c = 0) ∧
      (∀ d, defT = some d → d ∉ cols →
        ∀ c, build_monthly_rotation_weights sqrtQ cols mp use12 lb useTs tsLb
          useF xlv volAt topk tv mg defT true monthOfDay t c = 0)) ∧
    (rotation_scores (rotation_score_row mp use12 lb m) (rotation_hc cols) = [] →
      ∀ c, build_monthly_rotation_weights sqrtQ cols mp use12 lb useTs tsLb useF
        xlv volAt topk tv mg defT true monthOfDay t c = 0) := by
  have hmg0 : (0 : ℚ) < mg := lt_of_lt_of_le one_pos hmg
  refine ⟨?_, ?_, ?_⟩
  · intro v hv hv0
    apply build_rotation_flat_of_month_zero sqrtQ cols mp use12 lb useTs tsLb
      useF xlv volAt topk tv mg defT true monthOfDay t m hm hmg0
    intro c
    unfold rotation_monthly
    rw [hv]
    exact rotation_month_flat_on_trend sqrtQ cols _ _ _ _ _ _ _ _ _ _ _ hv0
  · intro htrend hne hall
    have hcore := rotation_monthly_eq_core sqrtQ cols mp use12 lb useTs tsLb useF
      xlv volAt topk tv mg defT true m htrend
    have hdef : ∀ c, rotation_monthly sqrtQ cols mp use12 lb useTs tsLb useF xlv
        volAt topk tv mg defT true m c =
        rotation_month_defensive cols defT true c := fun c =>
      (hcore c).trans (rotation_month_core_of_neg_scores sqrtQ cols _ _ _ _ _ _ _
        _ _ c hne hall)
    refine ⟨?_, ?_, ?_⟩
    · intro d hdT hdin
      subst hdT
      have hrow : ∀ c, rotation_monthly sqrtQ cols mp use12 lb useTs tsLb useF
          xlv volAt topk tv mg (some d) true m c = if c = d then 1 else 0 := by
        intro c
        rw [hdef c]
        show (if true = true ∧ d ∈ cols then (fun e => if e = d then (1 : ℚ) else 0)
          else fun _ => 0) c = if c = d then 1 else 0
        rw [if_pos ⟨rfl, hdin⟩]
      have hdaily : ∀ c, rotation_daily
          (rotation_monthly sqrtQ cols mp use12 lb useTs tsLb useF xlv volAt topk
            tv mg (some d) true) monthOfDay t c = if c = d then 1 else 0 := by
        intro c
        unfold rotation_daily
        rw [hm]
        exact hrow c
      have hg : gross_exposure_cols cols
          (rotation_daily (rotation_monthly sqrtQ cols mp use12 lb useTs tsLb
            useF xlv volAt topk tv mg (some d) true) monthOfDay) t = 1 := by
        unfold gross_exposure_cols
        rw [List.map_congr_left (fun c _ => by rw [hdaily c])]
        exact sum_abs_indicator cols d hnd hdin
      constructor
      · unfold build_monthly_rotation_weights
        rw [recap_not_over _ _ _ _ _ (by rw [hg]; exact hmg), hdaily d, if_pos rfl]
      · intro c hc
        unfold build_monthly_rotation_weights
        rw [recap_not_over _ _ _ _ _ (by rw [hg]; exact hmg), hdaily c, if_neg hc]
    · intro hdT
      subst hdT
      apply build_rotation_flat_of_month_zero sqrtQ cols mp use12 lb useTs tsLb
        useF xlv volAt topk tv mg none true monthOfDay t m hm hmg0
      intro c
      rw [hdef c]
      rfl
    · intro d hdT hdout
      subst hdT
      apply build_rotation_flat_of_month_zero sqrtQ cols mp use12 lb useTs tsLb
        useF xlv volAt topk tv mg (some d) true monthOfDay t m hm hmg0
      intro c
      rw [hdef c]
      show (if true = true ∧ d ∈ cols then (fun e => if e = d then (1 : ℚ) else 0)
        else fun _ => 0) c = 0
      rw [if_neg (by rintro ⟨-, hin⟩; exact hdout hin)]
  · intro hempty
    apply build_rotation_flat_of_month_zero sqrtQ cols mp use12 lb useTs tsLb
      useF xlv volAt topk tv mg defT true monthOfDay t m hm hmg0
    intro c
    unfold rotation_monthly
    cases hx : rotation_xlv_trend mp useF cols xlv m with
    | none =>
        exact rotation_month_core_of_no_scores sqrtQ cols _ _ _ _ _ _ _ _ _ c hempty
    | some v =>
        by_cases hv : v ≤ 0
        · exact rotation_month_flat_on_trend sqrtQ cols _ _ _ _ _ _ _ _ _ _ _ hv
        · show (if v ≤ 0 then (fun _ => (0 : ℚ))
            else rotation_month_core sqrtQ cols (rotation_hc cols)
              (rotation_score_row mp use12 lb m) (rotation_ts_row mp useTs tsLb m)
              (volAt m) topk tv mg defT true) c = 0
          rw [if_neg hv]
          exact rotation_month_core_of_no_scores sqrtQ cols _ _ _ _ _ _ _ _ _ c hempty

/-- Witness for the amended C7: a month with a non-positive trend value is
flat, and a month with all-zero momentum scores puts weight 1 on the
defensive ticker. -/
theorem rotation_trend_filter_and_defensive_witness :
    build_monthly_rotation_weights (fun q => q) ["XBI", "XLV"] (fun _ _ => 1)
      false 1 false 12 true "XLV" (fun _ _ => none) 2 (1 / 10) (3 / 2)
      (some "XLV") true (fun _ => some 12) 0 "XBI" = 0 ∧
    build_monthly_rotation_weights (fun q => q) ["XBI", "XLV"] (fun _ _ => 1)
      false 1 false 12 false "XLV" (fun _ _ => none) 2 (1 / 10) (3 / 2)
      (some "XLV") true (fun _ => some 2) 0 "XLV" = 1 := by
  constructor
  · have H := rotation_trend_filter_and_defensive (fun q => q) ["XBI", "XLV"]
      (fun _ _ => 1) false 1 false 12 true "XLV" (fun _ _ => none) 2 (1 / 10)
      (3 / 2) (some "XLV") (fun _ => some 12) 0 12 rfl (by norm_num) (by decide)
    refine H.1 0 ?_ le_rfl "XBI"
    unfold rotation_xlv_trend
    rw [if_pos ⟨rfl, by simp, le_rfl⟩]
    norm_num
  · have H := rotation_trend_filter_and_defensive (fun q => q) ["XBI", "XLV"]
      (fun _ _ => 1) false 1 false 12 false "XLV" (fun _ _ => none) 2 (1 / 10)
      (3 / 2) (some "XLV") (fun _ => some 2) 0 2 rfl (by norm_num) (by decide)
    have hhc : rotation_hc ["XBI", "XLV"] = ["XBI", "XLV"] := by decide
    have hs : rotation_scores (rotation_score_row (fun _ _ => (1 : ℚ)) false 1 2)
        (rotation_hc ["XBI", "XLV"]) = [("XBI", 0), ("XLV", 0)] := by
      unfold rotation_scores
      rw [hhc]
      norm_num [rotation_score_row, compute_momentum_signal, raw_lookback_return,
        List.filterMap_cons]
    exact ((H.2.1 (fun v hv => by simp [rotation_xlv_trend] at hv)
      (by rw [hs]; simp) (by rw [hs]; norm_num)).1 "XLV" rfl (by simp)).1

/-- C7 counterexample: in a month where every momentum score is missing (here
the first month under 12-1 momentum) the code goes to cash even though a
defensive ticker is configured and present, where the claim as stated demands
weight 1.0 on the defensive ticker. -/
theorem rotation_defensive_counterexample :
    "XLV" ∈ (["XBI", "XLV"] : List String) ∧
    build_monthly_rotation_weights (fun q => q) ["XBI", "XLV"] (fun _ _ => 1)
      true 6 false 12 false "XLV" (fun _ _ => none) 2 (1 / 10) (3 / 2)
      (some "XLV") true (fun _ => some 0) 0 "XLV" = 0 ∧
    (0 : ℚ) ≠ 1 := by
  refine ⟨by simp, ?_, by norm_num⟩
  have hempty : rotation_scores (rotation_score_row (fun _ _ => (1 : ℚ)) true 6 0)
      (rotation_hc ["XBI", "XLV"]) = [] := by
    simp [rotation_scores, rotation_score_row, rotation_hc, compute_12m_1m_momentum]
  apply build_rotation_flat_of_month_zero (fun q => q) ["XBI", "XLV"]
    (fun _ _ => 1) true 6 false 12 false "XLV" (fun _ _ => none) 2 (1 / 10)
    (3 / 2) (some "XLV") true (fun _ => some 0) 0 0 rfl (by norm_num)
  intro c
  unfold rotation_monthly
  have hx : rotation_xlv_trend (fun _ _ => (1 : ℚ)) false ["XBI", "XLV"] "XLV" 0
      = none := by
    unfold rotation_xlv_trend
    rw [if_neg (by simp)]
  rw [hx]
  exact rotation_month_core_of_no_scores (fun q => q) ["XBI", "XLV"] _ _ _ _ _ _
    _ _ _ c hempty

end HealthEtf
